import Mathlib

/-!
Verification development for the Multi-Node-Hoster supervisor (src/index.js).

The supervisor's mutable state (the `processes` and `startTimes` objects, the
`logStream` selector, the per-workload log files and the operator console) is
embedded as an explicit record `SupState`; each event handler of the source
(`startBot`, `stopBot`, `restartBot`, the spawn exit/stdout/stderr handlers,
the readline `line` handler, the reconciliation tick) becomes a pure state
transformer, and the event-driven execution becomes a step relation `step`
over occurring events (subprocess exits, timer firings, data chunks, operator
input lines, reconciliation ticks).
-/

namespace Hoster

/-- One decimal digit character; models the fixed-width digit fields of
`Date.prototype.toISOString`. -/
def digitChar (n : Nat) : Char := Char.ofNat (48 + n % 10)

/-- Two-digit zero-padded field of `toISOString`. -/
def pad2 (n : Nat) : List Char := [digitChar (n / 10), digitChar n]

/-- Three-digit zero-padded milliseconds field of `toISOString`. -/
def pad3 (n : Nat) : List Char := [digitChar (n / 100), digitChar (n / 10), digitChar n]

/-- Four-digit zero-padded year field of `toISOString`. -/
def pad4 (n : Nat) : List Char :=
  [digitChar (n / 1000), digitChar (n / 100), digitChar (n / 10), digitChar n]

/-- Broken-down calendar time, the relevant observable content of a JS `Date`. -/
structure DateTime where
  year : Nat
  month : Nat
  day : Nat
  hour : Nat
  minute : Nat
  second : Nat
  ms : Nat
deriving DecidableEq, Repr

/-- Characters of `new Date().toISOString()`:
`YYYY-MM-DDTHH:MM:SS.mmmZ` with fixed-width zero-padded fields. -/
def toISOChars (d : DateTime) : List Char :=
  pad4 d.year ++ ('-' :: pad2 d.month) ++ ('-' :: pad2 d.day) ++
    ('T' :: pad2 d.hour) ++ (':' :: pad2 d.minute) ++ (':' :: pad2 d.second) ++
    ('.' :: pad3 d.ms) ++ ['Z']

/-- Whether the first list is an initial segment of the second. -/
def charsStartWith : List Char → List Char → Bool
  | [], _ => true
  | _ :: _, [] => false
  | p :: ps, c :: cs => p == c && charsStartWith ps cs

/-- JS `String.prototype.replace` with a string pattern: replaces only the
first occurrence of `pat` by `rep`. -/
def jsReplaceFirst : List Char → List Char → List Char → List Char
  | [], _, _ => []
  | c :: rest, pat, rep =>
    if charsStartWith pat (c :: rest) then rep ++ List.drop pat.length (c :: rest)
    else c :: jsReplaceFirst rest pat rep

/-- JS `s.split(sep)[0]` for a single-character separator: everything before
the first occurrence of `sep` (the whole string if `sep` is absent). -/
def jsSplitHead (sep : Char) (s : List Char) : List Char :=
  s.takeWhile (fun c => c != sep)

/-- `timestamp()` from src/index.js:
`new Date().toISOString().replace("T", " ").split(".")[0]`. -/
def timestamp (d : DateTime) : String :=
  String.mk (jsSplitHead '.' (jsReplaceFirst (toISOChars d) ['T'] [' ']))

/-- The `YYYY-MM-DD HH:MM:SS` character sequence the spec prescribes for
log-line timestamps. -/
def tsChars (d : DateTime) : List Char :=
  pad4 d.year ++ ('-' :: pad2 d.month) ++ ('-' :: pad2 d.day) ++
    (' ' :: pad2 d.hour) ++ (':' :: pad2 d.minute) ++ (':' :: pad2 d.second)

/-- JS whitespace test for the characters appearing in this program's
messages. -/
def isWsChar (c : Char) : Bool := c == ' ' || c == '\n' || c == '\t' || c == '\r'

/-- JS `String.prototype.trim`. -/
def jsTrim (s : String) : String :=
  String.mk (((s.data.dropWhile isWsChar).reverse.dropWhile isWsChar).reverse)

/-- JS `String.prototype.padEnd` with the default space filler. -/
def jsPadEnd (s : String) (n : Nat) : String :=
  s ++ String.mk (List.replicate (n - s.length) ' ')

/-- The regex `/^\d+$/` used for workload-directory names and for the
live-stream selection command. -/
def isNumericId (s : String) : Bool :=
  !s.isEmpty && s.data.all (fun c => c.isDigit)

/-- The regex `/^r\d+$/` for restart commands. -/
def isRestartCmd (s : String) : Bool :=
  match s.data with
  | 'r' :: rest => !rest.isEmpty && rest.all (fun c => c.isDigit)
  | _ => false

/-- The regex `/^s\d+$/` for stop commands. -/
def isStopCmd (s : String) : Bool :=
  match s.data with
  | 's' :: rest => !rest.isEmpty && rest.all (fun c => c.isDigit)
  | _ => false

/-- Lookup in a JS-object-like association list (`obj[key]`). -/
def lookupA {α : Type} : List (String × α) → String → Option α
  | [], _ => none
  | (k, v) :: rest, key => if k = key then some v else lookupA rest key

/-- JS object property assignment `obj[key] = v`: overwrites in place, or
appends a new key at the end. -/
def insertA {α : Type} : List (String × α) → String → α → List (String × α)
  | [], key, v => [(key, v)]
  | (k, w) :: rest, key, v =>
    if k = key then (key, v) :: rest else (k, w) :: insertA rest key v

/-- JS `delete obj[key]`. -/
def eraseA {α : Type} : List (String × α) → String → List (String × α)
  | [], _ => []
  | (k, w) :: rest, key =>
    if k = key then eraseA rest key else (k, w) :: eraseA rest key

/-- Remove the first pair with the given key (used for consuming a single
handle or a single scheduled timer). -/
def removeFirst : List (String × Nat) → String → List (String × Nat)
  | [], _ => []
  | (k, v) :: rest, key => if k = key then rest else (k, v) :: removeFirst rest key

/-- Whether some pair with the given key is present. -/
def hasKey (l : List (String × Nat)) (key : String) : Bool :=
  l.any (fun p => p.1 == key)

/-- `listProjects()` on a successfully read root directory:
`fs.readdirSync("./").filter((dir) => /^\d+$/.test(dir))`. -/
def listProjects (entries : List String) : List String :=
  entries.filter isNumericId

/-- `listProjects()` including the host filesystem call: `fs.readdirSync`
either returns the entry list or throws, and src/index.js has no
try/catch, so a read error propagates to the caller. -/
def listProjectsTry (readdirResult : Except String (List String)) :
    Except String (List String) :=
  match readdirResult with
  | Except.ok entries => Except.ok (listProjects entries)
  | Except.error e => Except.error e

/-- `formatDuration(ms)` from src/index.js. -/
def formatDuration (ms : Nat) : String :=
  let sec := ms / 1000 % 60
  let min := ms / (1000 * 60) % 60
  let hr := ms / (1000 * 60 * 60)
  toString hr ++ "h " ++ toString min ++ "m " ++ toString sec ++ "s"

/-- The supervisor's mutable state plus the observable environment:
`processes` and `startTimes` are the two global maps of src/index.js,
`logStream` the live-stream selector; `liveHandles` are spawned children
whose `exit` event has not fired yet (each carries its attached handlers),
`pendingTimers` the `setTimeout(() => startBot(id), 5000)` callbacks not yet
fired, `killed` the pids that were sent a kill signal, `nextPid` the pid the
next spawn returns, `fileLog` the per-id appended log lines (chronological),
and `console` the operator console lines (chronological). -/
structure SupState where
  processes : List (String × Nat)
  startTimes : List (String × Nat)
  logStream : Option String
  liveHandles : List (String × Nat)
  pendingTimers : List (String × Nat)
  killed : List Nat
  nextPid : Nat
  fileLog : List (String × String)
  console : List String
deriving DecidableEq, Repr

/-- Supervisor state right after startup, before any event. -/
def initState : SupState :=
  { processes := []
    startTimes := []
    logStream := none
    liveHandles := []
    pendingTimers := []
    killed := []
    nextPid := 1000
    fileLog := []
    console := [] }

/-- `logToFile(id, message)`: appends `[<timestamp>] <message>` to the log
file `logs/<id>.txt`. -/
def logToFile (id msg : String) (d : DateTime) (s : SupState) : SupState :=
  { s with fileLog := s.fileLog ++ [(id, "[" ++ timestamp d ++ "] " ++ msg)] }

/-- Print one line on the operator console. -/
def consoleLog (line : String) (s : SupState) : SupState :=
  { s with console := s.console ++ [line] }

/-- `startBot(id)`: no-op if `processes[id]` is set; otherwise spawns the
child, registers handle and start time, wires the handlers (modelled by the
new entry in `liveHandles`), and logs the start notice. -/
def startBot (d : DateTime) (now : Nat) (id : String) (s : SupState) : SupState :=
  if (lookupA s.processes id).isSome then s
  else
    let pid := s.nextPid
    let s1 := { s with
      processes := insertA s.processes id pid
      startTimes := insertA s.startTimes id now
      liveHandles := (id, pid) :: s.liveHandles
      nextPid := s.nextPid + 1 }
    let msg := "Started " ++ id ++ "/index.js (PID: " ++ toString pid ++ ")\n"
    let s2 := consoleLog ("[" ++ timestamp d ++ "] " ++ jsTrim msg) s1
    logToFile id msg d s2

/-- Display of a JS exit code: an integer, or `null` when the child was
terminated by a signal. -/
def exitCodeStr : Option Int → String
  | none => "null"
  | some n => toString n

/-- The `bot.on("exit", ...)` handler body of `startBot`: logs the exit
code, deletes both registry entries, and schedules `startBot(id)` after
5000 ms. -/
def onExit (id : String) (code : Option Int) (d : DateTime) (s : SupState) : SupState :=
  let msg := id ++ "/index.js exited with code " ++ exitCodeStr code ++
    ". Restarting in 5s...\n"
  let s1 := consoleLog ("[" ++ timestamp d ++ "] " ++ jsTrim msg) s
  let s2 := logToFile id msg d s1
  { s2 with
    processes := eraseA s2.processes id
    startTimes := eraseA s2.startTimes id
    pendingTimers := (id, 5000) :: s2.pendingTimers }

/-- The `bot.stdout.on("data", ...)` / `bot.stderr.on("data", ...)` handler
bodies: echo to the console iff `logStream === id`, and always append to the
log file. -/
def onData (isErr : Bool) (id data : String) (d : DateTime) (s : SupState) : SupState :=
  let msg :=
    if isErr then "[" ++ id ++ " ERROR] " ++ data else "[" ++ id ++ "] " ++ data
  let s1 :=
    if s.logStream = some id then
      consoleLog ("[" ++ timestamp d ++ "] " ++ msg) s
    else s
  logToFile id msg d s1

/-- `stopBot(id)`: if running, kills the handle, deletes both registry
entries and logs a stop message; otherwise prints `not running`. -/
def stopBot (d : DateTime) (id : String) (s : SupState) : SupState :=
  match lookupA s.processes id with
  | some pid =>
    let s1 := { s with
      killed := pid :: s.killed
      processes := eraseA s.processes id
      startTimes := eraseA s.startTimes id }
    let msg := "Stopped bot " ++ id ++ "\n"
    let s2 := consoleLog ("[" ++ timestamp d ++ "] " ++ jsTrim msg) s1
    logToFile id msg d s2
  | none => consoleLog ("Bot " ++ id ++ " not running.") s

/-- `restartBot(id)`: if running, kills the handle (the exit handler's
restart logic brings it back); otherwise starts it directly. -/
def restartBot (d : DateTime) (now : Nat) (id : String) (s : SupState) : SupState :=
  match lookupA s.processes id with
  | some pid =>
    consoleLog ("[" ++ timestamp d ++ "] Restarting bot " ++ id ++ "...")
      { s with killed := pid :: s.killed }
  | none =>
    startBot d now id
      (consoleLog ("[" ++ timestamp d ++ "] Bot " ++ id ++ " not running, starting...") s)

/-- One row of the `ls` status table. -/
inductive Row where
  | running (id : String) (pid : Nat) (uptime : String)
  | stopped (id : String)
deriving DecidableEq, Repr

/-- The workload id a status row is about. -/
def rowId : Row → String
  | Row.running id _ _ => id
  | Row.stopped id => id

/-- The row `showStatus` produces for one discovered id. When the id is
registered, JS reads `startTimes[id]`; the `getD 0` default is only taken
where JS would compute `Date.now() - undefined = NaN`, which the
processes/startTimes synchronization invariant rules out. -/
def statusRow (now : Nat) (s : SupState) (id : String) : Row :=
  match lookupA s.processes id with
  | some pid =>
    Row.running id pid (formatDuration (now - (lookupA s.startTimes id).getD 0))
  | none => Row.stopped id

/-- The rows of the `ls` table: one per currently discovered numeric
directory name, in discovery order. -/
def showStatusRows (dirs : List String) (now : Nat) (s : SupState) : List Row :=
  (listProjects dirs).map (statusRow now s)

/-- The printed form of one status row, as `showStatus` builds it. -/
def renderRow : Row → String
  | Row.running id pid uptime =>
    jsPadEnd id 4 ++ " RUNNING   " ++ jsPadEnd (toString pid) 6 ++ " " ++ uptime
  | Row.stopped id => jsPadEnd id 4 ++ " STOPPED"

/-- `showStatus()`: re-runs discovery and prints header plus one row per
discovered id. -/
def showStatus (dirs : List String) (now : Nat) (s : SupState) : SupState :=
  { s with console := s.console ++
      ["\nBot Status:\n", "ID   Status     PID     Uptime",
       "--------------------------------------"] ++
      (showStatusRows dirs now s).map renderRow ++ [""] }

/-- The `rl.on("line", ...)` handler: the command grammar of the interactive
control surface, with the branches in source order. `dirs` is the root
directory listing `showStatus` would obtain for `ls`. -/
def handleLine (d : DateTime) (now : Nat) (dirs : List String) (input : String)
    (s : SupState) : SupState :=
  if isNumericId input then { s with logStream := some input }
  else if input = "0" then { s with logStream := none }
  else if isRestartCmd input then restartBot d now (input.drop 1) s
  else if input = "ra" then
    (s.processes.map Prod.fst).foldl (fun st k => restartBot d now k st) s
  else if isStopCmd input then stopBot d (input.drop 1) s
  else if input = "sa" then
    (s.processes.map Prod.fst).foldl (fun st k => stopBot d k st) s
  else if input = "ls" then showStatus dirs now s
  else s

/-- One reconciliation tick on a successfully read root directory: start
every discovered id that is not registered, then stop every registered id
that is no longer discovered. -/
def reconcileTick (dirs : List String) (d : DateTime) (now : Nat)
    (s : SupState) : SupState :=
  let current := listProjects dirs
  let s1 := current.foldl
    (fun st id => if (lookupA st.processes id).isSome then st else startBot d now id st) s
  (s1.processes.map Prod.fst).foldl
    (fun st id =>
      if current.contains id then st
      else stopBot d id
        (consoleLog ("[" ++ timestamp d ++ "] Project " ++ id ++
          " folder deleted, stopping bot...") st)) s1

/-- One reconciliation tick including the host `readdirSync` call: since
`listProjects` has no try/catch, a directory read error propagates out of
the tick callback instead of being handled. -/
def reconcileTickTry (readdirResult : Except String (List String)) (d : DateTime)
    (now : Nat) (s : SupState) : Except String SupState :=
  match listProjectsTry readdirResult with
  | Except.ok entries => Except.ok (reconcileTick entries d now s)
  | Except.error e => Except.error e

/-- The events the runtime can deliver to the supervisor. -/
inductive Event where
  | start (id : String)
  | stop (id : String)
  | restart (id : String)
  | exitEv (id : String) (code : Option Int)
  | fireTimer (id : String)
  | dataEv (isErr : Bool) (id : String) (data : String)
  | line (dirs : List String) (input : String)
  | tick (dirs : List String)

/-- One event delivery. Exit and data events only occur for a spawned child
that has not exited yet, and a timer only fires if it was scheduled; the
handler bodies themselves are unconditional, as in the source. -/
def step (d : DateTime) (now : Nat) : Event → SupState → SupState
  | Event.start id, s => startBot d now id s
  | Event.stop id, s => stopBot d id s
  | Event.restart id, s => restartBot d now id s
  | Event.exitEv id code, s =>
    if hasKey s.liveHandles id then
      onExit id code d { s with liveHandles := removeFirst s.liveHandles id }
    else s
  | Event.fireTimer id, s =>
    if hasKey s.pendingTimers id then
      startBot d now id { s with pendingTimers := removeFirst s.pendingTimers id }
    else s
  | Event.dataEv isErr id data, s =>
    if hasKey s.liveHandles id then onData isErr id data d s else s
  | Event.line dirs input, s => handleLine d now dirs input s
  | Event.tick dirs, s => reconcileTick dirs d now s

/-- Run a sequence of events. -/
def run (d : DateTime) (now : Nat) : List Event → SupState → SupState
  | [], s => s
  | e :: es, s => run d now es (step d now e s)

/-- At most one registry entry per workload id: the keys of `processes` are
pairwise distinct. -/
abbrev RegNodup (s : SupState) : Prop := (s.processes.map Prod.fst).Nodup

/-- The two registry maps have the same keys in the same order. -/
abbrev SyncKeys (s : SupState) : Prop :=
  s.processes.map Prod.fst = s.startTimes.map Prod.fst

/-- A fixed date used for concrete executions. -/
def d0 : DateTime :=
  { year := 2026, month := 10, day := 11, hour := 12, minute := 30, second := 45, ms := 123 }

/-- Workload "1" started from the initial state. -/
def c1Started : SupState := step d0 0 (Event.start "1") initState

/-- Then explicitly stopped by the operator (`stopBot("1")`). -/
def c1Stopped : SupState := step d0 0 (Event.stop "1") c1Started

/-- The killed child's `exit` event then fires (signal death, code `null`). -/
def c1Exited : SupState := step d0 0 (Event.exitEv "1" none) c1Stopped

/-- The 5-second timer scheduled by the exit handler fires. -/
def c1Relaunched : SupState := step d0 0 (Event.fireTimer "1") c1Exited

/-- Workload "0" running while the operator is live-streaming workload "2". -/
def c3Watching : SupState :=
  { step d0 0 (Event.start "0") initState with logStream := some "2" }

/-- The operator then enters the line `0` on the control surface. -/
def c3AfterZero : SupState := handleLine d0 0 ["0"] "0" c3Watching

/-- Workload "1" running, for the C5 witness. -/
def c5Running : SupState := step d0 0 (Event.start "1") initState

/-- Workload "3" running, for the C9 witness. -/
def c9Running : SupState := step d0 5 (Event.start "3") initState

/-- Workload "1" running, for the C10 witness. -/
def c10Running : SupState := step d0 0 (Event.start "1") initState

theorem t_beq_digitChar (n : Nat) : ('T' == digitChar n) = false := by
  have h : n % 10 < 10 := Nat.mod_lt n (by omega)
  unfold digitChar
  revert h
  generalize n % 10 = k
  intro h
  interval_cases k <;> decide

theorem digitChar_bne_dot (n : Nat) : (digitChar n != '.') = true := by
  have h : n % 10 < 10 := Nat.mod_lt n (by omega)
  unfold digitChar
  revert h
  generalize n % 10 = k
  intro h
  interval_cases k <;> decide

theorem t_beq_dash : ('T' == '-') = false := by decide

theorem t_beq_self : ('T' == 'T') = true := by decide

theorem dash_bne_dot : (('-' : Char) != '.') = true := by decide

theorem space_bne_dot : ((' ' : Char) != '.') = true := by decide

theorem colon_bne_dot : (((':' : Char)) != '.') = true := by decide

theorem dot_bne_dot : ((('.' : Char)) != '.') = false := by decide

/-- `timestamp` renders exactly the `YYYY-MM-DD HH:MM:SS` character shape:
the `replace("T", " ")` hits the single `'T'` of the ISO string and
`split(".")[0]` cuts exactly before the milliseconds. -/
theorem timestamp_eq_tsChars (d : DateTime) : timestamp d = String.mk (tsChars d) := by
  obtain ⟨y, mo, dd, hh, mi, ss, ms⟩ := d
  simp [timestamp, toISOChars, tsChars, pad4, pad3, pad2, jsReplaceFirst, jsSplitHead,
    charsStartWith, t_beq_digitChar, digitChar_bne_dot, t_beq_dash, t_beq_self,
    dash_bne_dot, space_bne_dot, colon_bne_dot, dot_bne_dot]

theorem lookupA_eq_none_iff {α : Type} (m : List (String × α)) (k : String) :
    lookupA m k = none ↔ k ∉ m.map Prod.fst := by
  induction m with
  | nil => simp [lookupA]
  | cons p rest ih =>
    obtain ⟨k', v⟩ := p
    by_cases h : k' = k
    · subst h
      simp [lookupA]
    · have h2 : ¬k = k' := fun hx => h hx.symm
      simp only [lookupA, if_neg h, List.map_cons, List.mem_cons, ih]
      tauto

theorem lookupA_isSome_iff {α : Type} (m : List (String × α)) (k : String) :
    (lookupA m k).isSome = true ↔ k ∈ m.map Prod.fst := by
  rcases hl : lookupA m k with _ | v
  · rw [lookupA_eq_none_iff] at hl
    simp [hl]
  · have hne : lookupA m k ≠ none := by simp [hl]
    rw [Ne, lookupA_eq_none_iff, not_not] at hne
    simp [hne]

theorem insertA_of_not_mem {α : Type} (m : List (String × α)) (k : String) (v : α)
    (h : k ∉ m.map Prod.fst) : insertA m k v = m ++ [(k, v)] := by
  induction m with
  | nil => simp [insertA]
  | cons p rest ih =>
    obtain ⟨k', w⟩ := p
    simp only [List.map_cons, List.mem_cons] at h
    push_neg at h
    have h2 : ¬k' = k := fun hx => h.1 hx.symm
    simp [insertA, h2, ih h.2]

theorem map_fst_eraseA {α : Type} (m : List (String × α)) (k : String) :
    (eraseA m k).map Prod.fst = (m.map Prod.fst).filter (fun x => x != k) := by
  induction m with
  | nil => simp [eraseA]
  | cons p rest ih =>
    obtain ⟨k', w⟩ := p
    by_cases h : k' = k
    · subst h
      simp [eraseA, ih]
    · simp [eraseA, h, ih]

theorem nodup_append_singleton {l : List String} {k : String}
    (h1 : l.Nodup) (h2 : k ∉ l) : (l ++ [k]).Nodup := by
  induction l with
  | nil => simp
  | cons a as ih =>
    simp only [List.nodup_cons] at h1
    simp only [List.mem_cons] at h2
    push_neg at h2
    simp only [List.cons_append, List.nodup_cons, List.mem_append, List.mem_singleton]
    exact ⟨by rintro (h | h); exacts [h1.1 h, h2.1 h.symm], ih h1.2 h2.2⟩

theorem foldl_preserve {P : SupState → Prop} {f : SupState → String → SupState}
    (hf : ∀ st k, P st → P (f st k)) :
    ∀ (l : List String) (s : SupState), P s → P (l.foldl f s) := by
  intro l
  induction l with
  | nil => exact fun s h => h
  | cons k ks ih => exact fun s h => ih (f s k) (hf s k h)

theorem isSome_false_eq_none {α : Type} {o : Option α}
    (h : ¬o.isSome = true) : o = none := by
  cases o with
  | none => rfl
  | some v => simp at h

theorem processes_onData (isErr : Bool) (id data : String) (d : DateTime) (s : SupState) :
    (onData isErr id data d s).processes = s.processes := by
  simp only [onData, consoleLog, logToFile]
  split_ifs <;> rfl

theorem startTimes_onData (isErr : Bool) (id data : String) (d : DateTime) (s : SupState) :
    (onData isErr id data d s).startTimes = s.startTimes := by
  simp only [onData, consoleLog, logToFile]
  split_ifs <;> rfl

theorem regNodup_startBot (d : DateTime) (now : Nat) (id : String) (s : SupState)
    (h : RegNodup s) : RegNodup (startBot d now id s) := by
  unfold startBot
  split
  · exact h
  · rename_i hn
    have hnone : lookupA s.processes id = none := isSome_false_eq_none hn
    have hmem : id ∉ s.processes.map Prod.fst := (lookupA_eq_none_iff _ _).mp hnone
    show ((insertA s.processes id s.nextPid).map Prod.fst).Nodup
    rw [insertA_of_not_mem _ _ _ hmem]
    simp only [List.map_append, List.map_cons, List.map_nil]
    exact nodup_append_singleton h hmem

theorem syncKeys_startBot (d : DateTime) (now : Nat) (id : String) (s : SupState)
    (h : SyncKeys s) : SyncKeys (startBot d now id s) := by
  unfold startBot
  split
  · exact h
  · rename_i hn
    have hnone : lookupA s.processes id = none := isSome_false_eq_none hn
    have hmem : id ∉ s.processes.map Prod.fst := (lookupA_eq_none_iff _ _).mp hnone
    have hmem2 : id ∉ s.startTimes.map Prod.fst := by
      rw [← h]; exact hmem
    show (insertA s.processes id s.nextPid).map Prod.fst =
      (insertA s.startTimes id now).map Prod.fst
    rw [insertA_of_not_mem _ _ _ hmem, insertA_of_not_mem _ _ _ hmem2]
    simp only [List.map_append, List.map_cons, List.map_nil]
    rw [h]

theorem regNodup_stopBot (d : DateTime) (id : String) (s : SupState)
    (h : RegNodup s) : RegNodup (stopBot d id s) := by
  rcases hl : lookupA s.processes id with _ | pid <;> simp only [stopBot, hl]
  · exact h
  · show ((eraseA s.processes id).map Prod.fst).Nodup
    rw [map_fst_eraseA]
    exact h.filter _

theorem syncKeys_stopBot (d : DateTime) (id : String) (s : SupState)
    (h : SyncKeys s) : SyncKeys (stopBot d id s) := by
  rcases hl : lookupA s.processes id with _ | pid <;> simp only [stopBot, hl]
  · exact h
  · show (eraseA s.processes id).map Prod.fst = (eraseA s.startTimes id).map Prod.fst
    rw [map_fst_eraseA, map_fst_eraseA, h]

theorem regNodup_onExit (id : String) (code : Option Int) (d : DateTime) (s : SupState)
    (h : RegNodup s) : RegNodup (onExit id code d s) := by
  show ((eraseA s.processes id).map Prod.fst).Nodup
  rw [map_fst_eraseA]
  exact h.filter _

theorem syncKeys_onExit (id : String) (code : Option Int) (d : DateTime) (s : SupState)
    (h : SyncKeys s) : SyncKeys (onExit id code d s) := by
  show (eraseA s.processes id).map Prod.fst = (eraseA s.startTimes id).map Prod.fst
  rw [map_fst_eraseA, map_fst_eraseA, h]

theorem regNodup_restartBot (d : DateTime) (now : Nat) (id : String) (s : SupState)
    (h : RegNodup s) : RegNodup (restartBot d now id s) := by
  rcases hl : lookupA s.processes id with _ | pid <;> simp only [restartBot, hl]
  · exact regNodup_startBot d now id _ h
  · exact h

theorem syncKeys_restartBot (d : DateTime) (now : Nat) (id : String) (s : SupState)
    (h : SyncKeys s) : SyncKeys (restartBot d now id s) := by
  rcases hl : lookupA s.processes id with _ | pid <;> simp only [restartBot, hl]
  · exact syncKeys_startBot d now id _ h
  · exact h

theorem regNodup_handleLine (d : DateTime) (now : Nat) (dirs : List String)
    (input : String) (s : SupState) (h : RegNodup s) :
    RegNodup (handleLine d now dirs input s) := by
  unfold handleLine
  split_ifs
  · exact h
  · exact h
  · exact regNodup_restartBot d now _ s h
  · exact foldl_preserve (fun st k hk => regNodup_restartBot d now k st hk) _ s h
  · exact regNodup_stopBot d _ s h
  · exact foldl_preserve (fun st k hk => regNodup_stopBot d k st hk) _ s h
  · exact h
  · exact h

theorem syncKeys_handleLine (d : DateTime) (now : Nat) (dirs : List String)
    (input : String) (s : SupState) (h : SyncKeys s) :
    SyncKeys (handleLine d now dirs input s) := by
  unfold handleLine
  split_ifs
  · exact h
  · exact h
  · exact syncKeys_restartBot d now _ s h
  · exact foldl_preserve (fun st k hk => syncKeys_restartBot d now k st hk) _ s h
  · exact syncKeys_stopBot d _ s h
  · exact foldl_preserve (fun st k hk => syncKeys_stopBot d k st hk) _ s h
  · exact h
  · exact h

theorem regNodup_reconcileTick (dirs : List String) (d : DateTime) (now : Nat)
    (s : SupState) (h : RegNodup s) : RegNodup (reconcileTick dirs d now s) := by
  unfold reconcileTick
  refine foldl_preserve ?_ _ _ (foldl_preserve ?_ _ _ h)
  · intro st k hk
    split
    · exact hk
    · exact regNodup_stopBot d k _ hk
  · intro st k hk
    split
    · exact hk
    · exact regNodup_startBot d now k st hk

theorem syncKeys_reconcileTick (dirs : List String) (d : DateTime) (now : Nat)
    (s : SupState) (h : SyncKeys s) : SyncKeys (reconcileTick dirs d now s) := by
  unfold reconcileTick
  refine foldl_preserve ?_ _ _ (foldl_preserve ?_ _ _ h)
  · intro st k hk
    split
    · exact hk
    · exact syncKeys_stopBot d k _ hk
  · intro st k hk
    split
    · exact hk
    · exact syncKeys_startBot d now k st hk

theorem regNodup_step (d : DateTime) (now : Nat) (e : Event) (s : SupState)
    (h : RegNodup s) : RegNodup (step d now e s) := by
  cases e with
  | start id => exact regNodup_startBot d now id s h
  | stop id => exact regNodup_stopBot d id s h
  | restart id => exact regNodup_restartBot d now id s h
  | exitEv id code =>
    simp only [step]
    split
    · exact regNodup_onExit id code d _ h
    · exact h
  | fireTimer id =>
    simp only [step]
    split
    · exact regNodup_startBot d now id _ h
    · exact h
  | dataEv isErr id data =>
    simp only [step]
    split
    · show ((onData isErr id data d s).processes.map Prod.fst).Nodup
      rw [processes_onData]
      exact h
    · exact h
  | line dirs input => exact regNodup_handleLine d now dirs input s h
  | tick dirs => exact regNodup_reconcileTick dirs d now s h

theorem syncKeys_step (d : DateTime) (now : Nat) (e : Event) (s : SupState)
    (h : SyncKeys s) : SyncKeys (step d now e s) := by
  cases e with
  | start id => exact syncKeys_startBot d now id s h
  | stop id => exact syncKeys_stopBot d id s h
  | restart id => exact syncKeys_restartBot d now id s h
  | exitEv id code =>
    simp only [step]
    split
    · exact syncKeys_onExit id code d _ h
    · exact h
  | fireTimer id =>
    simp only [step]
    split
    · exact syncKeys_startBot d now id _ h
    · exact h
  | dataEv isErr id data =>
    simp only [step]
    split
    · show (onData isErr id data d s).processes.map Prod.fst =
        (onData isErr id data d s).startTimes.map Prod.fst
      rw [processes_onData, startTimes_onData]
      exact h
    · exact h
  | line dirs input => exact syncKeys_handleLine d now dirs input s h
  | tick dirs => exact syncKeys_reconcileTick dirs d now s h

theorem regNodup_run (d : DateTime) (now : Nat) (evs : List Event) (s : SupState)
    (h : RegNodup s) : RegNodup (run d now evs s) := by
  induction evs generalizing s with
  | nil => exact h
  | cons e es ih => exact ih (step d now e s) (regNodup_step d now e s h)

theorem syncKeys_run (d : DateTime) (now : Nat) (evs : List Event) (s : SupState)
    (h : SyncKeys s) : SyncKeys (run d now evs s) := by
  induction evs generalizing s with
  | nil => exact h
  | cons e es ih => exact ih (step d now e s) (syncKeys_step d now e s h)

theorem self_ne_append_singleton {α : Type} (l : List α) (x : α) : l ≠ l ++ [x] := by
  intro h
  have h2 := congrArg List.length h
  simp at h2

theorem rowId_statusRow (now : Nat) (s : SupState) (id : String) :
    rowId (statusRow now s id) = id := by
  rcases hl : lookupA s.processes id with _ | pid <;> simp [statusRow, hl, rowId]

/-- C1: the code violates "explicit Stop is terminal". In the concrete run
`c1Started → c1Stopped → c1Exited → c1Relaunched`, `stopBot("1")` does clear
the registry, but the killed child's still-attached exit handler fires,
schedules the 5-second restart timer, and the timer's firing re-registers
workload "1" with a fresh pid — an automatic restart after an explicit Stop,
with no operator or reconciliation request in between. -/
theorem stop_not_terminal_restart_happens :
    lookupA c1Stopped.processes "1" = none
    ∧ hasKey c1Stopped.liveHandles "1" = true
    ∧ c1Exited.pendingTimers = [("1", 5000)]
    ∧ lookupA c1Relaunched.processes "1" = some 1001 := by
  refine ⟨by decide, by decide, by decide, by decide⟩

/-- C2: the code violates "Workload Discovery never fails": `listProjects`
has no try/catch around `fs.readdirSync`, so a read error propagates to the
caller instead of yielding the empty set, and the reconciliation tick fails
with that error for every supervisor state instead of proceeding. -/
theorem discovery_error_propagates :
    (∀ e : String, listProjectsTry (Except.error e) = Except.error e)
    ∧ (∀ (e : String) (d : DateTime) (now : Nat) (s : SupState),
        reconcileTickTry (Except.error e) d now s = Except.error e)
    ∧ listProjectsTry (Except.error "EACCES: permission denied") ≠
        Except.ok ([] : List String) := by
  refine ⟨fun e => rfl, fun e d now s => rfl, fun h => Except.noConfusion h⟩

/-- C3: the code violates "entering `0` clears the LiveStreamSelector": the
numeric branch `/^\d+$/` matches `"0"` first, so the dedicated clear branch
is dead and the selector is set to workload id "0"; output of a workload
named "0" is then still echoed to the console. -/
theorem input_zero_selects_workload_zero :
    c3AfterZero.logStream = some "0"
    ∧ c3AfterZero.logStream ≠ none
    ∧ (step d0 0 (Event.dataEv false "0" "hello") c3AfterZero).console =
        c3AfterZero.console ++
          ["[" ++ timestamp d0 ++ "] " ++ ("[" ++ "0" ++ "] " ++ "hello")] := by
  refine ⟨by decide, by decide, by decide⟩

/-- C4: crash recovery is unconditional: for every tracked id and every exit
code (an integer or `null` for signal death), the exit handler logs the exit
code to the id's file, removes the id from both registry maps, and pushes
exactly one `(id, 5000)` restart timer; when that timer fires, it invokes
`startBot(id)`. -/
theorem exit_handler_unregisters_and_schedules_restart (id : String)
    (code : Option Int) (d : DateTime) (now : Nat) (s : SupState) :
    (onExit id code d s).processes = eraseA s.processes id
    ∧ (onExit id code d s).startTimes = eraseA s.startTimes id
    ∧ (onExit id code d s).pendingTimers = (id, 5000) :: s.pendingTimers
    ∧ (onExit id code d s).fileLog = s.fileLog ++
        [(id, "[" ++ timestamp d ++ "] " ++
          (id ++ "/index.js exited with code " ++ exitCodeStr code ++
            ". Restarting in 5s...\n"))]
    ∧ (∀ (s2 : SupState) (tl : List (String × Nat)),
        step d now (Event.fireTimer id)
            { s2 with pendingTimers := (id, 5000) :: tl } =
          startBot d now id { s2 with pendingTimers := tl }) := by
  refine ⟨rfl, rfl, rfl, rfl, ?_⟩
  intro s2 tl
  simp [step, hasKey, removeFirst]

/-- C5: `startBot(id)` is a no-op (the whole state unchanged, nothing
spawned) whenever `processes[id]` is set, and consequently every event
sequence preserves pairwise-distinct registry keys: at most one handle is
registered per workload id at any time. -/
theorem startBot_noop_and_registry_unique (d : DateTime) (now : Nat)
    (id : String) (s : SupState) (evs : List Event) :
    ((lookupA s.processes id).isSome = true → startBot d now id s = s)
    ∧ (RegNodup s → RegNodup (run d now evs s)) := by
  constructor
  · intro h
    simp [startBot, h]
  · exact fun h => regNodup_run d now evs s h

/-- Witness for C5: a concretely running workload "1" is not restarted by a
second `startBot("1")`, and a concrete event sequence keeps the registry
keys distinct. -/
theorem startBot_noop_and_registry_unique_check :
    startBot d0 0 "1" c5Running = c5Running
    ∧ RegNodup (run d0 0
        [Event.start "2", Event.exitEv "1" (some 0), Event.fireTimer "1"] c5Running) :=
  ⟨(startBot_noop_and_registry_unique d0 0 "1" c5Running []).1 (by decide),
   (startBot_noop_and_registry_unique d0 0 "1" c5Running
      [Event.start "2", Event.exitEv "1" (some 0), Event.fireTimer "1"]).2 (by decide)⟩

/-- C6: every chunk arriving on a tracked workload's stdout or stderr is
appended to that id's log file unconditionally, and the timestamped echo
line is written to the operator console if and only if the
LiveStreamSelector currently equals the id. -/
theorem data_logged_always_echoed_iff_selected (isErr : Bool) (id data : String)
    (d : DateTime) (s : SupState) :
    (onData isErr id data d s).fileLog = s.fileLog ++
        [(id, "[" ++ timestamp d ++ "] " ++
          (if isErr then "[" ++ id ++ " ERROR] " ++ data
           else "[" ++ id ++ "] " ++ data))]
    ∧ ((onData isErr id data d s).console =
        s.console ++ ["[" ++ timestamp d ++ "] " ++
          (if isErr then "[" ++ id ++ " ERROR] " ++ data
           else "[" ++ id ++ "] " ++ data)]
        ↔ s.logStream = some id) := by
  refine ⟨?_, ?_, ?_⟩
  · simp only [onData, consoleLog, logToFile]
    split_ifs <;> rfl
  · intro hc
    by_contra hsel
    have hns : (onData isErr id data d s).console = s.console := by
      simp [onData, consoleLog, logToFile, hsel]
    rw [hns] at hc
    exact self_ne_append_singleton _ _ hc
  · intro hsel
    simp [onData, consoleLog, logToFile, hsel]

/-- C7: `formatDuration` renders integer hours, minutes reduced mod 60 and
seconds reduced mod 60 in the fixed `Hh Mm Ss` shape, and 3661 seconds
render as `1h 1m 1s`. -/
theorem formatDuration_shape (ms : Nat) :
    formatDuration ms =
      toString (ms / (1000 * 60 * 60)) ++ "h " ++
        toString (ms / (1000 * 60) % 60) ++ "m " ++
        toString (ms / 1000 % 60) ++ "s"
    ∧ ms / (1000 * 60) % 60 < 60
    ∧ ms / 1000 % 60 < 60
    ∧ formatDuration 3661000 = "1h 1m 1s" := by
  refine ⟨rfl, Nat.mod_lt _ (by omega), Nat.mod_lt _ (by omega), by decide⟩

/-- C8: `timestamp` produces exactly the `YYYY-MM-DD HH:MM:SS` character
shape, every `logToFile` append is prefixed `[<timestamp>] `, and the
stream handlers write `[<ts>] [<id>] <raw>` resp. `[<ts>] [<id> ERROR]
<raw>` into the per-id log. -/
theorem log_line_format (d : DateTime) (id msg data : String) (s : SupState) :
    timestamp d = String.mk (tsChars d)
    ∧ (logToFile id msg d s).fileLog = s.fileLog ++
        [(id, "[" ++ String.mk (tsChars d) ++ "] " ++ msg)]
    ∧ (onData false id data d s).fileLog = s.fileLog ++
        [(id, "[" ++ String.mk (tsChars d) ++ "] " ++ ("[" ++ id ++ "] " ++ data))]
    ∧ (onData true id data d s).fileLog = s.fileLog ++
        [(id, "[" ++ String.mk (tsChars d) ++ "] " ++
          ("[" ++ id ++ " ERROR] " ++ data))] := by
  refine ⟨timestamp_eq_tsChars d, ?_, ?_, ?_⟩
  · rw [← timestamp_eq_tsChars]
    rfl
  · rw [← timestamp_eq_tsChars]
    simp only [onData, consoleLog, logToFile]
    split_ifs <;> first | rfl | contradiction
  · rw [← timestamp_eq_tsChars]
    simp only [onData, consoleLog, logToFile]
    split_ifs <;> rfl

/-- C9: the `processes` and `startTimes` maps have identical key sets, this
is preserved by every operation (startBot, stopBot, the exit handler, and
all other events), and under it an id is registered iff it has a start
timestamp. -/
theorem registry_maps_synchronized (d : DateTime) (now : Nat) (s : SupState)
    (evs : List Event) :
    (SyncKeys s → SyncKeys (run d now evs s))
    ∧ (SyncKeys s → ∀ k : String,
        (lookupA s.processes k).isSome = (lookupA s.startTimes k).isSome) := by
  constructor
  · exact fun h => syncKeys_run d now evs s h
  · intro h k
    cases hp : (lookupA s.processes k).isSome with
    | false =>
      cases ht : (lookupA s.startTimes k).isSome with
      | false => rfl
      | true =>
        exfalso
        have hm : k ∈ s.startTimes.map Prod.fst := (lookupA_isSome_iff _ _).mp ht
        rw [← h] at hm
        have h2 := (lookupA_isSome_iff s.processes k).mpr hm
        rw [hp] at h2
        cases h2
    | true =>
      have hm : k ∈ s.processes.map Prod.fst := (lookupA_isSome_iff _ _).mp hp
      rw [h] at hm
      rw [(lookupA_isSome_iff _ _).mpr hm]

/-- Witness for C9: the synchronization holds across a concrete stop plus
stray timer event, and concretely "3" is in both maps of `c9Running`. -/
theorem registry_maps_synchronized_check :
    SyncKeys (run d0 5 [Event.stop "3", Event.fireTimer "3"] c9Running)
    ∧ (lookupA c9Running.processes "3").isSome =
        (lookupA c9Running.startTimes "3").isSome :=
  ⟨(registry_maps_synchronized d0 5 c9Running
      [Event.stop "3", Event.fireTimer "3"]).1 (by decide),
   (registry_maps_synchronized d0 5 c9Running []).2 (by decide) "3"⟩

/-- C10: the ls table is recomputed from disk discovery: there is exactly one
row per discovered numeric name (in discovery order), a registered id whose
directory is gone yields no row at all, and a discovered id with no registry
entry yields a STOPPED row. -/
theorem showStatus_rows_from_discovery (dirs : List String) (now : Nat)
    (s : SupState) :
    (showStatusRows dirs now s).map rowId = listProjects dirs
    ∧ (∀ id : String, id ∈ listProjects dirs → lookupA s.processes id = none →
        Row.stopped id ∈ showStatusRows dirs now s)
    ∧ (∀ id : String, (lookupA s.processes id).isSome = true →
        id ∉ listProjects dirs →
        ∀ r ∈ showStatusRows dirs now s, rowId r ≠ id) := by
  refine ⟨?_, ?_, ?_⟩
  · unfold showStatusRows
    generalize listProjects dirs = l
    induction l with
    | nil => rfl
    | cons a as ih => simp [rowId_statusRow, ih]
  · intro id hmem hnone
    have hrow : statusRow now s id = Row.stopped id := by
      simp [statusRow, hnone]
    rw [← hrow]
    exact List.mem_map_of_mem _ hmem
  · intro id hsome hnot r hr
    rcases List.mem_map.mp hr with ⟨x, hx, rfl⟩
    rw [rowId_statusRow]
    intro hxi
    exact hnot (hxi ▸ hx)

/-- Witness for C10: with workload "1" running in `c10Running`, discovery
`["1", "2", "junk"]` yields rows exactly for ["1", "2"], "2" shows STOPPED,
and when "1"'s directory is gone (discovery `["2"]`) no row mentions "1". -/
theorem showStatus_rows_from_discovery_check :
    (showStatusRows ["1", "2", "junk"] 7 c10Running).map rowId =
        listProjects ["1", "2", "junk"]
    ∧ Row.stopped "2" ∈ showStatusRows ["1", "2", "junk"] 7 c10Running
    ∧ (∀ r ∈ showStatusRows ["2"] 7 c10Running, rowId r ≠ "1") :=
  ⟨(showStatus_rows_from_discovery ["1", "2", "junk"] 7 c10Running).1,
   (showStatus_rows_from_discovery ["1", "2", "junk"] 7 c10Running).2.1 "2"
     (by decide) (by decide),
   fun r hr => (showStatus_rows_from_discovery ["2"] 7 c10Running).2.2 "1"
     (by decide) (by decide) r hr⟩

end Hoster
